import Mathlib

/-!
Verification development for the page-request protocol and storage-manager
shim declared in `pgxn/neon/pagestore_client.h`.

The header fixes the data model (message tags, request/response struct
layouts, the SLRU kind enum) and declares the operations (codec, page
service client, relation size cache, storage manager, SLRU reader); the
operations are implemented outside this repository snapshot, so they are
modelled here from the specification, while the enums and struct layouts
are translated directly from the header.
-/

/-- Message tags, translated from the `NeonMessageTag` enum in
`pagestore_client.h` (requests are 0..4, responses start at 100). -/
inductive NeonMessageTag where
  | T_NeonExistsRequest
  | T_NeonNblocksRequest
  | T_NeonGetPageRequest
  | T_NeonDbSizeRequest
  | T_NeonGetSlruPageRequest
  | T_NeonExistsResponse
  | T_NeonNblocksResponse
  | T_NeonGetPageResponse
  | T_NeonGetSlruPageResponse
  | T_NeonErrorResponse
  | T_NeonDbSizeResponse
  deriving DecidableEq

/-- Numeric value of each tag, as assigned by the C enum: request tags
count up from 0, response tags count up from `T_NeonExistsResponse = 100`. -/
def tagValue : NeonMessageTag → Nat
  | .T_NeonExistsRequest => 0
  | .T_NeonNblocksRequest => 1
  | .T_NeonGetPageRequest => 2
  | .T_NeonDbSizeRequest => 3
  | .T_NeonGetSlruPageRequest => 4
  | .T_NeonExistsResponse => 100
  | .T_NeonNblocksResponse => 101
  | .T_NeonGetPageResponse => 102
  | .T_NeonGetSlruPageResponse => 103
  | .T_NeonErrorResponse => 104
  | .T_NeonDbSizeResponse => 105

/-- The five request tags, in enum declaration order. -/
def requestTags : List NeonMessageTag :=
  [.T_NeonExistsRequest, .T_NeonNblocksRequest, .T_NeonGetPageRequest,
   .T_NeonDbSizeRequest, .T_NeonGetSlruPageRequest]

/-- The six response tags, in enum declaration order. -/
def responseTags : List NeonMessageTag :=
  [.T_NeonExistsResponse, .T_NeonNblocksResponse, .T_NeonGetPageResponse,
   .T_NeonGetSlruPageResponse, .T_NeonErrorResponse, .T_NeonDbSizeResponse]

/-- SLRU kinds, translated from the `NeonSlruKind` enum in
`pagestore_client.h`. -/
inductive NeonSlruKind where
  | NEON_CLOG
  | NEON_MULTI_XACT_MEMBERS
  | NEON_MULTI_XACT_OFFSETS
  | NEON_CSNLOG
  deriving DecidableEq

/-- Numeric value of each SLRU kind, as assigned by the C enum (0..3). -/
def kindValue : NeonSlruKind → Nat
  | .NEON_CLOG => 0
  | .NEON_MULTI_XACT_MEMBERS => 1
  | .NEON_MULTI_XACT_OFFSETS => 2
  | .NEON_CSNLOG => 3

/-- Decode a wire byte back into an SLRU kind; values outside 0..3 are a
decode error. -/
def kindOfValue : Nat → Option NeonSlruKind
  | 0 => some .NEON_CLOG
  | 1 => some .NEON_MULTI_XACT_MEMBERS
  | 2 => some .NEON_MULTI_XACT_OFFSETS
  | 3 => some .NEON_CSNLOG
  | _ => none

/-- Relation file node identity (`RelFileNode`): tablespace, database and
relation OIDs, each a 32-bit unsigned value on the wire. -/
structure RelFileNode where
  spcNode : Nat
  dbNode : Nat
  relNode : Nat
  deriving DecidableEq

/-- Common request header, translated from the `NeonRequest` struct fields
that every request embeds (`latest`, `lsn`, `region`); the tag is carried
by the variant itself. -/
structure NeonReqHeader where
  latest : Bool
  lsn : Nat
  region : Nat
  deriving DecidableEq

/-- The request union, one constructor per `Neon*Request` struct of the
header, fields in struct declaration order. -/
inductive NeonRequest where
  | existsRequest (req : NeonReqHeader) (rnode : RelFileNode) (forknum : Nat)
  | nblocksRequest (req : NeonReqHeader) (rnode : RelFileNode) (forknum : Nat)
  | getPageRequest (req : NeonReqHeader) (rnode : RelFileNode) (forknum : Nat) (blkno : Nat)
  | dbSizeRequest (req : NeonReqHeader) (dbNode : Nat)
  | getSlruPageRequest (req : NeonReqHeader) (kind : NeonSlruKind) (segno : Nat)
      (blkno : Nat) (check_exists_only : Bool)
  deriving DecidableEq

/-- The response union, one constructor per `Neon*Response` struct of the
header, fields in struct declaration order; the flexible-array page and
message members become explicit byte lists. -/
inductive NeonResponse where
  | existsResponse (lsn : Nat) (exists_flag : Bool)
  | nblocksResponse (lsn : Nat) (n_blocks : Nat)
  | getPageResponse (lsn : Nat) (page : List Nat)
  | dbSizeResponse (db_size : Nat)
  | getSlruPageResponse (lsn : Nat) (seg_exists : Bool) (page_exists : Bool) (page : List Nat)
  | errorResponse (message : List Nat)
  deriving DecidableEq

/-- Fixed page size: one storage block (`BLCKSZ`). -/
def PAGE_SIZE : Nat := 8192

/-! ## Byte-level primitives of the codec

Big-endian fixed-width integers (the pq wire format uses network byte
order), exact-length byte runs, one-byte booleans and SLRU kinds. -/

/-- Big-endian encoding of the low `w` bytes of `n`. -/
def beBytes : Nat → Nat → List Nat
  | 0, _ => []
  | w + 1, n => (n / 256 ^ w) % 256 :: beBytes w n

/-- Read a `w`-byte big-endian integer from the front of a byte stream. -/
def beRead : Nat → List Nat → Option (Nat × List Nat)
  | 0, s => some (0, s)
  | _ + 1, [] => none
  | w + 1, b :: s =>
    match beRead w s with
    | some (n, rest) => some (b * 256 ^ w + n, rest)
    | none => none

/-- Read exactly `n` raw bytes from the front of a byte stream. -/
def readBytes : Nat → List Nat → Option (List Nat × List Nat)
  | 0, s => some ([], s)
  | _ + 1, [] => none
  | n + 1, b :: s =>
    match readBytes n s with
    | some (bs, rest) => some (b :: bs, rest)
    | none => none

/-- One-byte boolean encoding. -/
def packBool (b : Bool) : List Nat := [if b then 1 else 0]

/-- Read a one-byte boolean: any nonzero byte is true. -/
def readBool : List Nat → Option (Bool × List Nat)
  | [] => none
  | b :: s => some (decide (b ≠ 0), s)

/-- One-byte SLRU kind encoding. -/
def packKind (k : NeonSlruKind) : List Nat := [kindValue k]

/-- Read a one-byte SLRU kind. -/
def readKind : List Nat → Option (NeonSlruKind × List Nat)
  | [] => none
  | b :: s =>
    match kindOfValue b with
    | some k => some (k, s)
    | none => none

theorem beRead_beBytes (w : Nat) : ∀ (n : Nat) (rest : List Nat),
    beRead w (beBytes w n ++ rest) = some (n % 256 ^ w, rest) := by
  induction w with
  | zero => intro n rest; simp [beRead, beBytes, Nat.mod_one]
  | succ w ih =>
    intro n rest
    have key : n / 256 ^ w % 256 * 256 ^ w + n % 256 ^ w = n % 256 ^ (w + 1) := by
      rw [pow_succ, Nat.mod_mul]; ring
    simp [beBytes, beRead, ih, key]

theorem readBytes_append (l rest : List Nat) :
    readBytes l.length (l ++ rest) = some (l, rest) := by
  induction l with
  | nil => simp [readBytes]
  | cons b t ih => simp [readBytes, ih]

theorem readBytes_append_of_length (n : Nat) (l rest : List Nat) (h : l.length = n) :
    readBytes n (l ++ rest) = some (l, rest) := by
  subst h; exact readBytes_append l rest

theorem readBool_packBool (b : Bool) (rest : List Nat) :
    readBool (packBool b ++ rest) = some (b, rest) := by
  cases b <;> simp [packBool, readBool]

theorem readKind_packKind (k : NeonSlruKind) (rest : List Nat) :
    readKind (packKind k ++ rest) = some (k, rest) := by
  cases k <;> simp [packKind, readKind, kindValue, kindOfValue]

/-! ## Message codec

Modelled from the spec: the implementations of `nm_pack_request` and
`nm_unpack_response` are not part of this snapshot (only their
declarations are), so packing and unpacking are modelled from the spec:
the tag is written first, then the fields in struct declaration order,
with a 64-bit LSN, 32-bit block/segment/fork/region numbers, one-byte
booleans and SLRU kinds, a length-prefixed error message, and a page
payload of exactly `PAGE_SIZE` bytes. -/

/-- Wire encoding of the common request header fields, in `NeonRequest`
declaration order (`latest`, `lsn`, `region`). -/
def packHeader (h : NeonReqHeader) : List Nat :=
  packBool h.latest ++ beBytes 8 h.lsn ++ beBytes 4 h.region

/-- Read the common request header fields back. -/
def readHeader (s : List Nat) : Option (NeonReqHeader × List Nat) :=
  match readBool s with
  | none => none
  | some (latest, s1) =>
    match beRead 8 s1 with
    | none => none
    | some (lsn, s2) =>
      match beRead 4 s2 with
      | none => none
      | some (region, s3) => some (⟨latest, lsn, region⟩, s3)

/-- Wire encoding of a `RelFileNode`: three 32-bit OIDs in declaration
order. -/
def packRelFileNode (r : RelFileNode) : List Nat :=
  beBytes 4 r.spcNode ++ beBytes 4 r.dbNode ++ beBytes 4 r.relNode

/-- Read a `RelFileNode` back. -/
def readRelFileNode (s : List Nat) : Option (RelFileNode × List Nat) :=
  match beRead 4 s with
  | none => none
  | some (spc, s1) =>
    match beRead 4 s1 with
    | none => none
    | some (db, s2) =>
      match beRead 4 s2 with
      | none => none
      | some (rel, s3) => some (⟨spc, db, rel⟩, s3)

/-- Modelled from the spec: `nm_pack_request` — tag byte first, then the
common header, then the variant fields in struct declaration order. -/
def nm_pack_request : NeonRequest → List Nat
  | .existsRequest h rn fk =>
      0 :: (packHeader h ++ packRelFileNode rn ++ beBytes 4 fk)
  | .nblocksRequest h rn fk =>
      1 :: (packHeader h ++ packRelFileNode rn ++ beBytes 4 fk)
  | .getPageRequest h rn fk bk =>
      2 :: (packHeader h ++ packRelFileNode rn ++ beBytes 4 fk ++ beBytes 4 bk)
  | .dbSizeRequest h db =>
      3 :: (packHeader h ++ beBytes 4 db)
  | .getSlruPageRequest h k segno bk ceo =>
      4 :: (packHeader h ++ packKind k ++ beBytes 4 segno ++ beBytes 4 bk ++ packBool ceo)

/-- Modelled from the spec: decoding of a packed request — read the tag,
then the header, then dispatch on the tag to the matching fixed layout;
unknown tags are a decode error. -/
def nm_unpack_request (s : List Nat) : Option (NeonRequest × List Nat) :=
  match s with
  | [] => none
  | t :: s0 =>
    match readHeader s0 with
    | none => none
    | some (h, s1) =>
      if t = 0 then
        match readRelFileNode s1 with
        | none => none
        | some (rn, s2) =>
          match beRead 4 s2 with
          | none => none
          | some (fk, s3) => some (.existsRequest h rn fk, s3)
      else if t = 1 then
        match readRelFileNode s1 with
        | none => none
        | some (rn, s2) =>
          match beRead 4 s2 with
          | none => none
          | some (fk, s3) => some (.nblocksRequest h rn fk, s3)
      else if t = 2 then
        match readRelFileNode s1 with
        | none => none
        | some (rn, s2) =>
          match beRead 4 s2 with
          | none => none
          | some (fk, s3) =>
            match beRead 4 s3 with
            | none => none
            | some (bk, s4) => some (.getPageRequest h rn fk bk, s4)
      else if t = 3 then
        match beRead 4 s1 with
        | none => none
        | some (db, s2) => some (.dbSizeRequest h db, s2)
      else if t = 4 then
        match readKind s1 with
        | none => none
        | some (k, s2) =>
          match beRead 4 s2 with
          | none => none
          | some (segno, s3) =>
            match beRead 4 s3 with
            | none => none
            | some (bk, s4) =>
              match readBool s4 with
              | none => none
              | some (ceo, s5) => some (.getSlruPageRequest h k segno bk ceo, s5)
      else none

/-- Modelled from the spec: `nm_pack_response` — tag byte first, then the
variant fields; the error message is a 32-bit length-prefixed byte string
(never terminator-delimited), page payloads are exactly `PAGE_SIZE` raw
bytes, and an SLRU page is present exactly when `page_exists` is set. -/
def nm_pack_response : NeonResponse → List Nat
  | .existsResponse lsn e =>
      100 :: (beBytes 8 lsn ++ packBool e)
  | .nblocksResponse lsn n =>
      101 :: (beBytes 8 lsn ++ beBytes 4 n)
  | .getPageResponse lsn page =>
      102 :: (beBytes 8 lsn ++ page)
  | .getSlruPageResponse lsn se pe page =>
      103 :: (beBytes 8 lsn ++ packBool se ++ packBool pe ++ page)
  | .errorResponse msg =>
      104 :: (beBytes 4 msg.length ++ msg)
  | .dbSizeResponse n =>
      105 :: beBytes 8 n

/-- Modelled from the spec: `nm_unpack_response` — read the tag and
dispatch to the matching fixed layout; a reserved tag or a short stream
is a decode error. -/
def nm_unpack_response (s : List Nat) : Option (NeonResponse × List Nat) :=
  match s with
  | [] => none
  | t :: s0 =>
    if t = 100 then
      match beRead 8 s0 with
      | none => none
      | some (lsn, s1) =>
        match readBool s1 with
        | none => none
        | some (e, s2) => some (.existsResponse lsn e, s2)
    else if t = 101 then
      match beRead 8 s0 with
      | none => none
      | some (lsn, s1) =>
        match beRead 4 s1 with
        | none => none
        | some (n, s2) => some (.nblocksResponse lsn n, s2)
    else if t = 102 then
      match beRead 8 s0 with
      | none => none
      | some (lsn, s1) =>
        match readBytes PAGE_SIZE s1 with
        | none => none
        | some (page, s2) => some (.getPageResponse lsn page, s2)
    else if t = 103 then
      match beRead 8 s0 with
      | none => none
      | some (lsn, s1) =>
        match readBool s1 with
        | none => none
        | some (se, s2) =>
          match readBool s2 with
          | none => none
          | some (pe, s3) =>
            if pe then
              match readBytes PAGE_SIZE s3 with
              | none => none
              | some (page, s4) => some (.getSlruPageResponse lsn se pe page, s4)
            else some (.getSlruPageResponse lsn se pe [], s3)
    else if t = 104 then
      match beRead 4 s0 with
      | none => none
      | some (len, s1) =>
        match readBytes len s1 with
        | none => none
        | some (msg, s2) => some (.errorResponse msg, s2)
    else if t = 105 then
      match beRead 8 s0 with
      | none => none
      | some (n, s1) => some (.dbSizeResponse n, s1)
    else none

/-- Constructible requests: every integer field fits its wire width. -/
def requestWf : NeonRequest → Bool
  | .existsRequest h rn fk =>
      decide (h.lsn < 2 ^ 64) && decide (h.region < 2 ^ 32) &&
      decide (rn.spcNode < 2 ^ 32) && decide (rn.dbNode < 2 ^ 32) &&
      decide (rn.relNode < 2 ^ 32) && decide (fk < 2 ^ 32)
  | .nblocksRequest h rn fk =>
      decide (h.lsn < 2 ^ 64) && decide (h.region < 2 ^ 32) &&
      decide (rn.spcNode < 2 ^ 32) && decide (rn.dbNode < 2 ^ 32) &&
      decide (rn.relNode < 2 ^ 32) && decide (fk < 2 ^ 32)
  | .getPageRequest h rn fk bk =>
      decide (h.lsn < 2 ^ 64) && decide (h.region < 2 ^ 32) &&
      decide (rn.spcNode < 2 ^ 32) && decide (rn.dbNode < 2 ^ 32) &&
      decide (rn.relNode < 2 ^ 32) && decide (fk < 2 ^ 32) && decide (bk < 2 ^ 32)
  | .dbSizeRequest h db =>
      decide (h.lsn < 2 ^ 64) && decide (h.region < 2 ^ 32) && decide (db < 2 ^ 32)
  | .getSlruPageRequest h _ segno bk _ =>
      decide (h.lsn < 2 ^ 64) && decide (h.region < 2 ^ 32) &&
      decide (segno < 2 ^ 32) && decide (bk < 2 ^ 32)

/-- Constructible responses: integer fields fit their wire widths, page
payloads have exactly `PAGE_SIZE` bytes (an SLRU page only when
`page_exists`), and the error message length fits its 32-bit prefix. -/
def responseWf : NeonResponse → Bool
  | .existsResponse lsn _ => decide (lsn < 2 ^ 64)
  | .nblocksResponse lsn n => decide (lsn < 2 ^ 64) && decide (n < 2 ^ 32)
  | .getPageResponse lsn page =>
      decide (lsn < 2 ^ 64) && decide (page.length = PAGE_SIZE)
  | .dbSizeResponse n => decide (n < 2 ^ 64)
  | .getSlruPageResponse lsn _ pe page =>
      decide (lsn < 2 ^ 64) &&
      (if pe then decide (page.length = PAGE_SIZE) else decide (page = []))
  | .errorResponse msg => decide (msg.length < 2 ^ 32)

theorem mod64_eq (n : Nat) (h : n < 2 ^ 64) : n % 18446744073709551616 = n :=
  Nat.mod_eq_of_lt (by omega)

theorem mod32_eq (n : Nat) (h : n < 2 ^ 32) : n % 4294967296 = n :=
  Nat.mod_eq_of_lt (by omega)

theorem readHeader_packHeader (h : NeonReqHeader) (rest : List Nat)
    (hl : h.lsn < 2 ^ 64) (hr : h.region < 2 ^ 32) :
    readHeader (packHeader h ++ rest) = some (h, rest) := by
  obtain ⟨lat, lsn, reg⟩ := h
  simp only at hl hr
  simp [packHeader, readHeader, readBool_packBool, beRead_beBytes,
    mod64_eq lsn hl, mod32_eq reg hr]

theorem readRelFileNode_packRelFileNode (r : RelFileNode) (rest : List Nat)
    (hs : r.spcNode < 2 ^ 32) (hd : r.dbNode < 2 ^ 32) (hr : r.relNode < 2 ^ 32) :
    readRelFileNode (packRelFileNode r ++ rest) = some (r, rest) := by
  obtain ⟨spc, db, rel⟩ := r
  simp only at hs hd hr
  simp [packRelFileNode, readRelFileNode, beRead_beBytes,
    mod32_eq spc hs, mod32_eq db hd, mod32_eq rel hr]

theorem unpack_pack_request (q : NeonRequest) (rest : List Nat) (hq : requestWf q = true) :
    nm_unpack_request (nm_pack_request q ++ rest) = some (q, rest) := by
  cases q with
  | existsRequest h rn fk =>
    simp only [requestWf, Bool.and_eq_true, decide_eq_true_eq] at hq
    obtain ⟨⟨⟨⟨⟨hl, hr⟩, h1⟩, h2⟩, h3⟩, h4⟩ := hq
    simp [nm_pack_request, nm_unpack_request,
      readHeader_packHeader h _ hl hr, readRelFileNode_packRelFileNode rn _ h1 h2 h3,
      beRead_beBytes, mod32_eq fk h4]
  | nblocksRequest h rn fk =>
    simp only [requestWf, Bool.and_eq_true, decide_eq_true_eq] at hq
    obtain ⟨⟨⟨⟨⟨hl, hr⟩, h1⟩, h2⟩, h3⟩, h4⟩ := hq
    simp [nm_pack_request, nm_unpack_request,
      readHeader_packHeader h _ hl hr, readRelFileNode_packRelFileNode rn _ h1 h2 h3,
      beRead_beBytes, mod32_eq fk h4]
  | getPageRequest h rn fk bk =>
    simp only [requestWf, Bool.and_eq_true, decide_eq_true_eq] at hq
    obtain ⟨⟨⟨⟨⟨⟨hl, hr⟩, h1⟩, h2⟩, h3⟩, h4⟩, h5⟩ := hq
    simp [nm_pack_request, nm_unpack_request,
      readHeader_packHeader h _ hl hr, readRelFileNode_packRelFileNode rn _ h1 h2 h3,
      beRead_beBytes, mod32_eq fk h4, mod32_eq bk h5]
  | dbSizeRequest h db =>
    simp only [requestWf, Bool.and_eq_true, decide_eq_true_eq] at hq
    obtain ⟨⟨hl, hr⟩, h1⟩ := hq
    simp [nm_pack_request, nm_unpack_request,
      readHeader_packHeader h _ hl hr, beRead_beBytes, mod32_eq db h1]
  | getSlruPageRequest h k segno bk ceo =>
    simp only [requestWf, Bool.and_eq_true, decide_eq_true_eq] at hq
    obtain ⟨⟨⟨hl, hr⟩, h1⟩, h2⟩ := hq
    simp [nm_pack_request, nm_unpack_request,
      readHeader_packHeader h _ hl hr, readKind_packKind, readBool_packBool,
      beRead_beBytes, mod32_eq segno h1, mod32_eq bk h2]

theorem unpack_pack_response (p : NeonResponse) (rest : List Nat) (hp : responseWf p = true) :
    nm_unpack_response (nm_pack_response p ++ rest) = some (p, rest) := by
  cases p with
  | existsResponse lsn e =>
    simp only [responseWf, decide_eq_true_eq] at hp
    simp [nm_pack_response, nm_unpack_response, beRead_beBytes, readBool_packBool,
      mod64_eq lsn hp]
  | nblocksResponse lsn n =>
    simp only [responseWf, Bool.and_eq_true, decide_eq_true_eq] at hp
    obtain ⟨hl, hn⟩ := hp
    simp [nm_pack_response, nm_unpack_response, beRead_beBytes,
      mod64_eq lsn hl, mod32_eq n hn]
  | getPageResponse lsn page =>
    simp only [responseWf, Bool.and_eq_true, decide_eq_true_eq] at hp
    obtain ⟨hl, hlen⟩ := hp
    simp [nm_pack_response, nm_unpack_response, beRead_beBytes,
      mod64_eq lsn hl, readBytes_append_of_length PAGE_SIZE page rest hlen]
  | dbSizeResponse n =>
    simp only [responseWf, decide_eq_true_eq] at hp
    simp [nm_pack_response, nm_unpack_response, beRead_beBytes, mod64_eq n hp]
  | getSlruPageResponse lsn se pe page =>
    simp only [responseWf, Bool.and_eq_true, decide_eq_true_eq] at hp
    obtain ⟨hl, hpage⟩ := hp
    cases pe with
    | true =>
      simp only [if_true] at hpage
      simp only [decide_eq_true_eq] at hpage
      simp [nm_pack_response, nm_unpack_response, beRead_beBytes, readBool_packBool,
        mod64_eq lsn hl, readBytes_append_of_length PAGE_SIZE page rest hpage]
    | false =>
      simp only [Bool.false_eq_true, if_false, decide_eq_true_eq] at hpage
      subst hpage
      simp [nm_pack_response, nm_unpack_response, beRead_beBytes, readBool_packBool,
        mod64_eq lsn hl]
  | errorResponse msg =>
    simp only [responseWf, decide_eq_true_eq] at hp
    simp [nm_pack_response, nm_unpack_response, beRead_beBytes,
      mod32_eq msg.length hp, readBytes_append]

/-! ## SLRU kind strings

Modelled from the spec: the bodies of `slru_kind_to_string` and
`slru_kind_from_string` are not in this snapshot; per the spec the four
kinds map to distinct exact names and any other string fails. -/

/-- Modelled from the spec: `slru_kind_to_string`, the exact name of each
of the four SLRU kinds. -/
def slru_kind_to_string : NeonSlruKind → String
  | .NEON_CLOG => "clog"
  | .NEON_MULTI_XACT_MEMBERS => "multixact-members"
  | .NEON_MULTI_XACT_OFFSETS => "multixact-offsets"
  | .NEON_CSNLOG => "csnlog"

/-- Modelled from the spec: `slru_kind_from_string`, exact-match lookup of
a kind name; unknown strings fail (`none` models the false return). -/
def slru_kind_from_string (s : String) : Option NeonSlruKind :=
  if s = "clog" then some .NEON_CLOG
  else if s = "multixact-members" then some .NEON_MULTI_XACT_MEMBERS
  else if s = "multixact-offsets" then some .NEON_MULTI_XACT_OFFSETS
  else if s = "csnlog" then some .NEON_CSNLOG
  else none

/-! ## Page service client

Modelled from the spec: the `page_server_api` function table's four
operations over one logical channel. The channel is a FIFO of requests:
`send` queues a request in the client-side outbox, `flush` moves the
outbox onto the wire, and `receive` answers the oldest outstanding
request. The remote store is abstracted as a deterministic response
function; FIFO correlation of responses to requests is the delivery
discipline the client adds on top of the codec. -/

structure ClientState where
  outbox : List NeonRequest
  inflight : List NeonRequest

/-- A fresh channel with nothing queued and nothing outstanding. -/
def initClient : ClientState := ⟨[], []⟩

/-- Modelled from the spec: `send` — enqueue a request without waiting for
its response. -/
def client_send (st : ClientState) (r : NeonRequest) : ClientState :=
  ⟨st.outbox ++ [r], st.inflight⟩

/-- Modelled from the spec: `flush` — transmit everything still queued
client-side; does not wait for responses. -/
def client_flush (st : ClientState) : ClientState :=
  ⟨[], st.inflight ++ st.outbox⟩

/-- Modelled from the spec: `receive` — flush, then block for the response
to the oldest outstanding request; `none` models a receive with no
outstanding request. -/
def client_receive (server : NeonRequest → NeonResponse) (st : ClientState) :
    Option (NeonResponse × ClientState) :=
  match st.inflight ++ st.outbox with
  | [] => none
  | r :: pending => some (server r, ⟨[], pending⟩)

/-- Modelled from the spec: `request` — the synchronous round trip,
transmitting the new request together with anything queued and returning
the response to the oldest outstanding request. -/
def client_request (server : NeonRequest → NeonResponse) (st : ClientState)
    (r : NeonRequest) : Option (NeonResponse × ClientState) :=
  match st.inflight ++ (st.outbox ++ [r]) with
  | [] => none
  | q :: pending => some (server q, ⟨[], pending⟩)

/-- Send a whole list of requests in order. -/
def send_all (st : ClientState) (rs : List NeonRequest) : ClientState :=
  rs.foldl client_send st

/-- Call `receive` `n` times, collecting the responses in order. -/
def receive_seq (server : NeonRequest → NeonResponse) : ClientState → Nat → List NeonResponse
  | _, 0 => []
  | st, n + 1 =>
    match client_receive server st with
    | none => []
    | some (resp, st2) => resp :: receive_seq server st2 n

theorem send_all_outbox (rs : List NeonRequest) : ∀ st : ClientState,
    send_all st rs = ⟨st.outbox ++ rs, st.inflight⟩ := by
  induction rs with
  | nil => intro st; simp [send_all]
  | cons r rs ih =>
    intro st
    show send_all (client_send st r) rs = _
    rw [ih]
    simp [client_send]

theorem receive_seq_eq_take (server : NeonRequest → NeonResponse) :
    ∀ (n : Nat) (o i : List NeonRequest),
      receive_seq server ⟨o, i⟩ n = ((i ++ o).take n).map server := by
  intro n
  induction n with
  | zero => intro o i; simp [receive_seq]
  | succ n ih =>
    intro o i
    cases h : i ++ o with
    | nil => simp [receive_seq, client_receive, h]
    | cons r pending =>
      simp [receive_seq, client_receive, h, ih [] pending]

/-! ## Relation size cache

Modelled from the spec: the relation-size cache operations declared in the
header (`get_cached_relsize`, `set_cached_relsize`, `update_cached_relsize`,
`forget_cached_relsize`); the hash table becomes a map from relation-fork
identity to the last-known block count. -/

def RelSizeCache := RelFileNode → Nat → Option Nat

/-- The empty cache: every fork is unknown. -/
def empty_relsize_cache : RelSizeCache := fun _ _ => none

/-- Look a fork up; `none` models the false return of the C function. -/
def get_cached_relsize (c : RelSizeCache) (rnode : RelFileNode) (forknum : Nat) :
    Option Nat :=
  c rnode forknum

/-- Overwrite a fork's known size unconditionally. -/
def set_cached_relsize (c : RelSizeCache) (rnode : RelFileNode) (forknum : Nat)
    (size : Nat) : RelSizeCache :=
  fun r f => if r = rnode ∧ f = forknum then some size else c r f

/-- Record a new size after a local extend (per the spec, records the new
size as current). -/
def update_cached_relsize (c : RelSizeCache) (rnode : RelFileNode) (forknum : Nat)
    (size : Nat) : RelSizeCache :=
  set_cached_relsize c rnode forknum size

/-- Remove a fork's entry (used on unlink/drop). -/
def forget_cached_relsize (c : RelSizeCache) (rnode : RelFileNode) (forknum : Nat) :
    RelSizeCache :=
  fun r f => if r = rnode ∧ f = forknum then none else c r f

theorem get_set_cached_relsize (c : RelSizeCache) (rnode : RelFileNode)
    (forknum size : Nat) :
    get_cached_relsize (set_cached_relsize c rnode forknum size) rnode forknum
      = some size := by
  simp [get_cached_relsize, set_cached_relsize]

theorem get_forget_cached_relsize (c : RelSizeCache) (rnode : RelFileNode)
    (forknum : Nat) :
    get_cached_relsize (forget_cached_relsize c rnode forknum) rnode forknum = none := by
  simp [get_cached_relsize, forget_cached_relsize]

/-! ## Remote storage manager: size operations

Modelled from the spec: the size-relevant storage-manager operations
(`neon_extend`, `neon_truncate`, `neon_unlink`, `neon_nblocks`). The state
is the relation size cache; each operation also reports the page-service
requests it issued, and the remote store's authoritative block counts are
abstracted as a deterministic oracle. `neon_extend` writes through the
write-ahead log, `neon_truncate` and `neon_unlink` only touch local
bookkeeping, so none of the three issues a page-service request. -/

structure NeonState where
  cache : RelSizeCache

/-- Modelled from the spec: `neon_extend` — after writing the new page past
the current end, the cache for the fork is updated to `blocknum + 1`; no
page-service request is issued. -/
def neon_extend (st : NeonState) (rnode : RelFileNode) (forknum blocknum : Nat) :
    NeonState × List NeonRequest :=
  ({ cache := update_cached_relsize st.cache rnode forknum (blocknum + 1) }, [])

/-- Modelled from the spec: `neon_truncate` — shrinks the fork and updates
the cache to the new block count unconditionally; no page-service request
is issued. -/
def neon_truncate (st : NeonState) (rnode : RelFileNode) (forknum nblocks : Nat) :
    NeonState × List NeonRequest :=
  ({ cache := set_cached_relsize st.cache rnode forknum nblocks }, [])

/-- Modelled from the spec: `neon_unlink` — drops the fork and forgets its
cache entry; no page-service request is issued. -/
def neon_unlink (st : NeonState) (rnode : RelFileNode) (forknum : Nat) :
    NeonState × List NeonRequest :=
  ({ cache := forget_cached_relsize st.cache rnode forknum }, [])

/-- Modelled from the spec: `neon_nblocks` — consult the relation size
cache first; on a miss, issue one Nblocks request (at the backend's
current visibility header `hdr`) against the remote oracle and populate
the cache with the answer. Returns the block count, the new state and the
requests issued. -/
def neon_nblocks (remote : RelFileNode → Nat → Nat) (hdr : NeonReqHeader)
    (st : NeonState) (rnode : RelFileNode) (forknum : Nat) :
    Nat × NeonState × List NeonRequest :=
  match get_cached_relsize st.cache rnode forknum with
  | some n => (n, st, [])
  | none =>
    let n := remote rnode forknum
    (n, { cache := set_cached_relsize st.cache rnode forknum n },
     [.nblocksRequest hdr rnode forknum])

/-! ## Prefetch machinery

Modelled from the spec: `neon_prefetch`, `neon_reset_prefetch` and the
prefetch-consuming part of `neon_read`. The channel keeps the in-flight
GetPage requests in send order; the tracking list records which of them
still have a known owner (fork and block), in the same FIFO order.
`reset_prefetch` drops the tracking but not the in-flight requests, whose
responses must still be drained. A read of a tracked block consumes
responses in FIFO order up to and including its own; a read of an
untracked block drains every in-flight response and issues a fresh
request. The remote store is a deterministic response function, so the
response drained for request `r` is `server r`. -/

structure PrefetchState where
  chan : List NeonRequest
  tracked : List ((RelFileNode × Nat × Nat) × NeonRequest)

/-- A state with no in-flight requests and no tracked prefetches. -/
def emptyPrefetchState : PrefetchState := ⟨[], []⟩

structure PrefetchOutcome where
  state : PrefetchState
  queued : Bool
  issued : List NeonRequest

/-- How a storage-level read ends: page data, a legitimate miss, an
application error reported by the remote store, a malformed response, or
a response of the wrong kind. -/
inductive ReadResult where
  | pageData (page : List Nat)
  | notFound
  | appError (message : List Nat)
  | decodeError
  | protocolError
  deriving DecidableEq

/-- Classify the response to a GetPage request: a page payload succeeds,
an ErrorResponse surfaces as an application error, and any other variant
is a protocol violation. -/
def interpretPage : NeonResponse → ReadResult
  | .getPageResponse _ page => .pageData page
  | .errorResponse msg => .appError msg
  | _ => .protocolError

structure ReadOutcome where
  result : ReadResult
  state : PrefetchState
  issued : List NeonRequest
  consumed : List (NeonRequest × NeonResponse)

/-- Modelled from the spec: `neon_prefetch` — send (do not request) a
GetPage for the block and track it as an outstanding prefetch; reports
that the request was queued. -/
def neon_prefetch (hdr : NeonReqHeader) (st : PrefetchState) (rnode : RelFileNode)
    (forknum blkno : Nat) : PrefetchOutcome :=
  let q := NeonRequest.getPageRequest hdr rnode forknum blkno
  { state := { chan := st.chan ++ [q], tracked := st.tracked ++ [((rnode, forknum, blkno), q)] },
    queued := true,
    issued := [q] }

/-- Modelled from the spec: `neon_reset_prefetch` — discard the tracking
state for outstanding prefetches; their requests stay in flight and their
responses must still be drained later. -/
def neon_reset_prefetch (st : PrefetchState) : PrefetchState :=
  { chan := st.chan, tracked := [] }

/-- Split the tracking list at the first entry for `key`: the requests of
the earlier tracked prefetches, the matching request, and the remaining
tracked entries. -/
def span_key (key : RelFileNode × Nat × Nat) :
    List ((RelFileNode × Nat × Nat) × NeonRequest) →
    Option (List NeonRequest × NeonRequest × List ((RelFileNode × Nat × Nat) × NeonRequest))
  | [] => none
  | (k, q) :: rest =>
    if k = key then some ([], q, rest)
    else
      match span_key key rest with
      | some (before, m, after) => some (q :: before, m, after)
      | none => none

/-- Modelled from the spec: the read path of `neon_read`. If the block has
an outstanding tracked prefetch, its response is recognized and consumed —
after draining, in FIFO order, the responses of discarded (untracked)
requests and of earlier tracked prefetches — and no new request is
issued. Otherwise every in-flight response is drained and exactly one
fresh GetPage request is issued and answered. -/
def neon_read (server : NeonRequest → NeonResponse) (hdr : NeonReqHeader)
    (st : PrefetchState) (rnode : RelFileNode) (forknum blkno : Nat) : ReadOutcome :=
  match span_key (rnode, forknum, blkno) st.tracked with
  | some (before, q, after) =>
    let discarded := st.chan.take (st.chan.length - st.tracked.length)
    { result := interpretPage (server q),
      state := { chan := after.map Prod.snd, tracked := after },
      issued := [],
      consumed := (discarded ++ before ++ [q]).map fun r => (r, server r) }
  | none =>
    let q := NeonRequest.getPageRequest hdr rnode forknum blkno
    { result := interpretPage (server q),
      state := { chan := [], tracked := [] },
      issued := [q],
      consumed := (st.chan ++ [q]).map fun r => (r, server r) }

/-- Test whether a request is a GetPage for the given block. -/
def isGetPageFor (rnode : RelFileNode) (forknum blkno : Nat) : NeonRequest → Bool
  | .getPageRequest _ r f b => decide (r = rnode) && decide (f = forknum) && decide (b = blkno)
  | _ => false

/-- Count the GetPage requests for one block in a request trace. -/
def countGetPage (reqs : List NeonRequest) (rnode : RelFileNode) (forknum blkno : Nat) :
    Nat :=
  (reqs.filter (isGetPageFor rnode forknum blkno)).length

/-! ## Claim theorems -/

/-- Claim C1: for every sequence of requests sent via the page service
client's `send`, successive `receive` calls yield the responses to those
requests in exactly the send order (strict FIFO correlation) — the list of
received responses is the request list mapped through the remote store's
response function, so no response is ever delivered out of send order. -/
theorem client_fifo_order (server : NeonRequest → NeonResponse) (rs : List NeonRequest) :
    receive_seq server (send_all initClient rs) rs.length = rs.map server := by
  rw [send_all_outbox rs initClient]
  show receive_seq server ⟨[] ++ rs, []⟩ _ = _
  rw [receive_seq_eq_take]
  simp

/-- Claim C2: the codec is a pure, deterministic transformation, and for
every constructible request and response value, unpacking the bytes
produced by packing reproduces the value field-for-field (with the rest of
the stream untouched). -/
theorem codec_round_trip (q : NeonRequest) (p : NeonResponse) (rest1 rest2 : List Nat)
    (hq : requestWf q = true) (hp : responseWf p = true) :
    nm_unpack_request (nm_pack_request q ++ rest1) = some (q, rest1) ∧
    nm_unpack_response (nm_pack_response p ++ rest2) = some (p, rest2) :=
  ⟨unpack_pack_request q rest1 hq, unpack_pack_response p rest2 hp⟩

theorem codec_round_trip_witness :
    requestWf (.existsRequest ⟨true, 5, 1⟩ ⟨1, 2, 16384⟩ 0) = true ∧
    responseWf (.existsResponse 100 true) = true ∧
    (nm_unpack_request (nm_pack_request (.existsRequest ⟨true, 5, 1⟩ ⟨1, 2, 16384⟩ 0) ++ [7])
        = some (.existsRequest ⟨true, 5, 1⟩ ⟨1, 2, 16384⟩ 0, [7]) ∧
     nm_unpack_response (nm_pack_response (.existsResponse 100 true) ++ [9])
        = some (.existsResponse 100 true, [9])) :=
  ⟨by decide, by decide,
   codec_round_trip (.existsRequest ⟨true, 5, 1⟩ ⟨1, 2, 16384⟩ 0)
     (.existsResponse 100 true) [7] [9] (by decide) (by decide)⟩

/-- Claim C3: after `neon_extend` of block `N` the next `neon_nblocks`
answers `N + 1` from the cache with no remote request; after
`neon_truncate` to `M` it answers `M` with no remote request; after
`neon_unlink` the cache entry is forgotten, so the next `neon_nblocks`
issues exactly one remote Nblocks request, returns the remote answer and
repopulates the cache with it. -/
theorem relsize_cache_coherence (remote : RelFileNode → Nat → Nat) (hdr : NeonReqHeader)
    (st : NeonState) (rnode : RelFileNode) (forknum N M : Nat) :
    neon_nblocks remote hdr (neon_extend st rnode forknum N).1 rnode forknum
      = (N + 1, (neon_extend st rnode forknum N).1, []) ∧
    neon_nblocks remote hdr (neon_truncate st rnode forknum M).1 rnode forknum
      = (M, (neon_truncate st rnode forknum M).1, []) ∧
    (neon_nblocks remote hdr (neon_unlink st rnode forknum).1 rnode forknum).1
      = remote rnode forknum ∧
    (neon_nblocks remote hdr (neon_unlink st rnode forknum).1 rnode forknum).2.2
      = [.nblocksRequest hdr rnode forknum] ∧
    get_cached_relsize
        (neon_nblocks remote hdr (neon_unlink st rnode forknum).1 rnode forknum).2.1.cache
        rnode forknum
      = some (remote rnode forknum) := by
  refine ⟨?_, ?_, ?_, ?_, ?_⟩ <;>
    simp [neon_nblocks, neon_extend, neon_truncate, neon_unlink,
      get_cached_relsize, set_cached_relsize, update_cached_relsize,
      forget_cached_relsize]

/-- Claim C4: a `neon_prefetch` of block `B` that queues its request,
followed by a `neon_read` of the same block, causes exactly one GetPage
request for `B` to be sent: the read recognizes the tracked prefetch,
consumes its response, and issues no request of its own. -/
theorem prefetch_single_getpage (server : NeonRequest → NeonResponse)
    (hdr1 hdr2 : NeonReqHeader) (rnode : RelFileNode) (forknum blkno : Nat) :
    (neon_prefetch hdr1 emptyPrefetchState rnode forknum blkno).queued = true ∧
    (neon_read server hdr2 (neon_prefetch hdr1 emptyPrefetchState rnode forknum blkno).state
        rnode forknum blkno).issued = [] ∧
    countGetPage
        ((neon_prefetch hdr1 emptyPrefetchState rnode forknum blkno).issued
          ++ (neon_read server hdr2
                (neon_prefetch hdr1 emptyPrefetchState rnode forknum blkno).state
                rnode forknum blkno).issued)
        rnode forknum blkno = 1 ∧
    (neon_read server hdr2 (neon_prefetch hdr1 emptyPrefetchState rnode forknum blkno).state
        rnode forknum blkno).result
      = interpretPage (server (.getPageRequest hdr1 rnode forknum blkno)) := by
  refine ⟨rfl, ?_, ?_, ?_⟩ <;>
    simp [neon_prefetch, neon_read, emptyPrefetchState, span_key,
      countGetPage, isGetPageFor]

/-- Claim C5: `neon_prefetch` of block `B`, then `neon_reset_prefetch`,
then `neon_read` of `B` issues a second GetPage request for `B` (two in
total), and the discarded first response is drained from the channel
before the second request's response is consumed, leaving the channel
empty — no desynchronization for subsequent operations. -/
theorem prefetch_discard_drains (server : NeonRequest → NeonResponse)
    (hdr1 hdr2 : NeonReqHeader) (rnode : RelFileNode) (forknum blkno : Nat) :
    (neon_read server hdr2
        (neon_reset_prefetch (neon_prefetch hdr1 emptyPrefetchState rnode forknum blkno).state)
        rnode forknum blkno).issued
      = [.getPageRequest hdr2 rnode forknum blkno] ∧
    countGetPage
        ((neon_prefetch hdr1 emptyPrefetchState rnode forknum blkno).issued
          ++ (neon_read server hdr2
                (neon_reset_prefetch
                  (neon_prefetch hdr1 emptyPrefetchState rnode forknum blkno).state)
                rnode forknum blkno).issued)
        rnode forknum blkno = 2 ∧
    (neon_read server hdr2
        (neon_reset_prefetch (neon_prefetch hdr1 emptyPrefetchState rnode forknum blkno).state)
        rnode forknum blkno).consumed
      = [(.getPageRequest hdr1 rnode forknum blkno,
          server (.getPageRequest hdr1 rnode forknum blkno)),
         (.getPageRequest hdr2 rnode forknum blkno,
          server (.getPageRequest hdr2 rnode forknum blkno))] ∧
    (neon_read server hdr2
        (neon_reset_prefetch (neon_prefetch hdr1 emptyPrefetchState rnode forknum blkno).state)
        rnode forknum blkno).state.chan = [] ∧
    (neon_read server hdr2
        (neon_reset_prefetch (neon_prefetch hdr1 emptyPrefetchState rnode forknum blkno).state)
        rnode forknum blkno).state.tracked = [] := by
  refine ⟨?_, ?_, ?_, ?_, ?_⟩ <;>
    simp [neon_prefetch, neon_reset_prefetch, neon_read, emptyPrefetchState, span_key,
      countGetPage, isGetPageFor]

/-- Claim C6: when the channel yields an ErrorResponse for the GetPage
request of a read, `neon_read` fails with an application-level error that
carries the remote message and is a different `ReadResult` constructor
from both the decode-error and the not-found outcomes; exactly the one
request was issued, so the error is not retried inside this layer. -/
theorem read_error_propagation (server : NeonRequest → NeonResponse)
    (hdr : NeonReqHeader) (rnode : RelFileNode) (forknum blkno : Nat) (msg : List Nat)
    (h : server (.getPageRequest hdr rnode forknum blkno) = .errorResponse msg) :
    (neon_read server hdr emptyPrefetchState rnode forknum blkno).result
      = .appError msg ∧
    (neon_read server hdr emptyPrefetchState rnode forknum blkno).issued
      = [.getPageRequest hdr rnode forknum blkno] ∧
    (neon_read server hdr emptyPrefetchState rnode forknum blkno).result
      ≠ .decodeError ∧
    (neon_read server hdr emptyPrefetchState rnode forknum blkno).result
      ≠ .notFound := by
  refine ⟨?_, ?_, ?_, ?_⟩ <;>
    simp [neon_read, emptyPrefetchState, span_key, h, interpretPage]

theorem read_error_propagation_witness :
    (fun _ : NeonRequest => NeonResponse.errorResponse [101])
        (.getPageRequest ⟨true, 0, 0⟩ ⟨1, 2, 3⟩ 0 7) = .errorResponse [101] ∧
    ((neon_read (fun _ => .errorResponse [101]) ⟨true, 0, 0⟩ emptyPrefetchState
        ⟨1, 2, 3⟩ 0 7).result = .appError [101] ∧
     (neon_read (fun _ => .errorResponse [101]) ⟨true, 0, 0⟩ emptyPrefetchState
        ⟨1, 2, 3⟩ 0 7).issued = [.getPageRequest ⟨true, 0, 0⟩ ⟨1, 2, 3⟩ 0 7] ∧
     (neon_read (fun _ => .errorResponse [101]) ⟨true, 0, 0⟩ emptyPrefetchState
        ⟨1, 2, 3⟩ 0 7).result ≠ .decodeError ∧
     (neon_read (fun _ => .errorResponse [101]) ⟨true, 0, 0⟩ emptyPrefetchState
        ⟨1, 2, 3⟩ 0 7).result ≠ .notFound) :=
  ⟨rfl, read_error_propagation (fun _ => .errorResponse [101]) ⟨true, 0, 0⟩
    ⟨1, 2, 3⟩ 0 7 [101] rfl⟩

/-- Claim C7: `slru_kind_to_string` and `slru_kind_from_string` are exact
inverses over the four SLRU kinds, and `slru_kind_from_string` succeeds
exactly on the four kind strings — every other string fails. -/
theorem slru_kind_string_round_trip :
    (∀ k, slru_kind_from_string (slru_kind_to_string k) = some k) ∧
    (∀ (s : String) (k : NeonSlruKind),
      slru_kind_from_string s = some k ↔ s = slru_kind_to_string k) := by
  constructor
  · intro k; cases k <;> simp [slru_kind_to_string, slru_kind_from_string]
  · intro s k
    cases k <;>
      simp only [slru_kind_from_string, slru_kind_to_string] <;>
      split_ifs <;> simp_all

/-- Claim C8: for every request and every channel state, `client_request`
returns the same response and leaves the channel in the same state as
`client_send` followed by `client_receive` — the synchronous round trip is
the pipelined pair. -/
theorem request_refines_send_receive (server : NeonRequest → NeonResponse)
    (st : ClientState) (r : NeonRequest) :
    client_request server st r = client_receive server (client_send st r) := by
  simp [client_request, client_receive, client_send]

/-- Claim C9: the codec encodes the error message of an ErrorResponse as a
length-prefixed byte string — the packed form is the tag byte, a 32-bit
big-endian length, then the raw message bytes — and the receiver recovers
the message's extent from that prefix alone, returning exactly the
prefixed bytes and leaving any trailing stream content untouched (no
terminator character is consulted). -/
theorem error_message_length_prefixed (msg rest : List Nat)
    (h : msg.length < 2 ^ 32) :
    nm_pack_response (.errorResponse msg) = 104 :: (beBytes 4 msg.length ++ msg) ∧
    nm_unpack_response (nm_pack_response (.errorResponse msg) ++ rest)
      = some (.errorResponse msg, rest) := by
  refine ⟨rfl, ?_⟩
  simp [nm_pack_response, nm_unpack_response, beRead_beBytes,
    mod32_eq msg.length h, readBytes_append]

theorem error_message_length_prefixed_witness :
    ([65, 0, 66] : List Nat).length < 2 ^ 32 ∧
    (nm_pack_response (.errorResponse [65, 0, 66])
        = 104 :: (beBytes 4 ([65, 0, 66] : List Nat).length ++ [65, 0, 66]) ∧
     nm_unpack_response (nm_pack_response (.errorResponse [65, 0, 66]) ++ [0, 99])
        = some (.errorResponse [65, 0, 66], [0, 99])) :=
  ⟨by decide, error_message_length_prefixed [65, 0, 66] [0, 99] (by decide)⟩

/-- Claim C10: the request tag values (0 through 4) and the response tag
values (100 through 105) of `NeonMessageTag` are disjoint sets: no request
variant shares a numeric tag with any response variant, so a message's
direction is determined by its tag value alone. -/
theorem tag_values_disjoint :
    requestTags.map tagValue = [0, 1, 2, 3, 4] ∧
    responseTags.map tagValue = [100, 101, 102, 103, 104, 105] ∧
    (requestTags.map tagValue).inter (responseTags.map tagValue) = [] := by
  decide
